import Mathlib

/-!
# Verification of the elfpy pricing-model and market-state engine

Shallow embedding of the bonding-curve pricing model and the market delta
pipeline of the `elf-simulations` repository
(`elfpy/pricing_models/base.py`, `elfpy/markets/base.py`), together with
theorems settling the frozen specification claims.

Python `float` / `decimal.Decimal` / elfpy `FixedPoint` arithmetic is
embedded as exact arithmetic over a linear ordered field (`ℚ` where the
claims are decided by comparisons and error paths, `ℝ` where real powers
are needed).  Where non-finite values (`nan`, `inf`) are observable, values
are embedded as `EFloat`, an extension of `ℚ` with IEEE-style special
values and comparison semantics (comparisons with `nan` are false, which is
also Python's behaviour).  Fallible operations return `Except`.
-/

namespace Elfpy

/-- A Python float value: either a finite value (embedded exactly as a
rational) or one of the IEEE special values `nan`, `inf`, `-inf`. -/
inductive EFloat where
  | nan : EFloat
  | inf : EFloat
  | ninf : EFloat
  | num : ℚ → EFloat
  deriving DecidableEq

namespace EFloat

/-- `np.isfinite` / `math.isfinite`: true exactly on finite values. -/
def isfinite : EFloat → Bool
  | .num _ => true
  | _ => false

/-- Python truthiness of a float (`bool(x)`): `0.0` is falsy; every other
value — including `nan` and the infinities — is truthy. -/
def truthy : EFloat → Bool
  | .num q => q ≠ 0
  | _ => true

/-- IEEE float addition (exact in the finite case: the embedding carries
finite values as exact rationals, so finite + finite stays finite). -/
def add : EFloat → EFloat → EFloat
  | .nan, _ => .nan
  | _, .nan => .nan
  | .inf, .ninf => .nan
  | .ninf, .inf => .nan
  | .inf, _ => .inf
  | _, .inf => .inf
  | .ninf, _ => .ninf
  | _, .ninf => .ninf
  | .num a, .num b => .num (a + b)

/-- IEEE comparison `x <= y`: false whenever either side is `nan`. -/
def le : EFloat → EFloat → Bool
  | .nan, _ => false
  | _, .nan => false
  | .ninf, _ => true
  | _, .ninf => false
  | _, .inf => true
  | .inf, _ => false
  | .num a, .num b => a ≤ b

/-- Python `x >= 0`: false for `nan` (IEEE comparison), true for `inf`. -/
def ge0 (x : EFloat) : Bool := le (.num 0) x

/-- Python `x < 0`: false for `nan`, true only for `-inf` and negative
finite values. -/
def lt0 : EFloat → Bool
  | .nan => false
  | .inf => false
  | .ninf => true
  | .num a => a < 0

/-- A value is negative-or-nan when it is `nan`, `-inf`, or a negative
finite value; these are exactly the values rejected by a Python
`assert x >= 0`. -/
def negOrNan : EFloat → Bool
  | .nan => true
  | .ninf => true
  | .inf => false
  | .num a => a < 0

theorem ge0_eq_not_negOrNan (x : EFloat) : x.ge0 = !x.negOrNan := by
  cases x with
  | nan => rfl
  | inf => rfl
  | ninf => rfl
  | num a =>
    simp only [ge0, le, negOrNan]
    by_cases h : a < 0
    · simp [h, not_le.mpr h]
    · simp [h, not_lt.mp h]

theorem add_not_isfinite (u v : EFloat) (h : v.isfinite = false) :
    (u.add v).isfinite = false := by
  cases u <;> cases v <;> simp_all [add, isfinite]

theorem truthy_of_not_isfinite (v : EFloat) (h : v.isfinite = false) :
    v.truthy = true := by
  cases v <;> simp_all [truthy, isfinite]

end EFloat

/-- The reserve ledger `hyperdrive_market.MarketState` (the fields the frozen
claims touch), generic over the value representation: `EFloat` for the
delta-application pipeline where non-finite values are observable, `ℚ` or
`ℝ` for the pure pricing functions. -/
structure MarketState (α : Type) where
  share_reserves : α
  bond_reserves : α
  lp_total_supply : α
  share_price : α
  init_share_price : α
  curve_fee_multiple : α
  flat_fee_multiple : α
  base_buffer : α
  bond_buffer : α
  deriving DecidableEq

/-- Modelled from the spec: `MarketDeltas` (the concrete hyperdrive deltas
class is not under `src/`) — "a write-once transaction object — signed
increments for every mutable MarketState field". One increment per
`MarketState` field; values are floats, so possibly non-finite. -/
structure MarketDeltas where
  d_share_reserves : EFloat
  d_bond_reserves : EFloat
  d_lp_total_supply : EFloat
  d_share_price : EFloat
  d_init_share_price : EFloat
  d_curve_fee_multiple : EFloat
  d_flat_fee_multiple : EFloat
  d_base_buffer : EFloat
  d_bond_buffer : EFloat
  deriving DecidableEq

/-- The field values of a delta, in `MarketState` field order (the
`market_deltas.__dict__.items()` iteration in `Market.check_market_updates`). -/
def deltaFields (d : MarketDeltas) : List EFloat :=
  [d.d_share_reserves, d.d_bond_reserves, d.d_lp_total_supply, d.d_share_price,
   d.d_init_share_price, d.d_curve_fee_multiple, d.d_flat_fee_multiple,
   d.d_base_buffer, d.d_bond_buffer]

/-- The field values of a ledger state, in declaration order. -/
def stateFields (s : MarketState EFloat) : List EFloat :=
  [s.share_reserves, s.bond_reserves, s.lp_total_supply, s.share_price,
   s.init_share_price, s.curve_fee_multiple, s.flat_fee_multiple,
   s.base_buffer, s.bond_buffer]

/-- `Market.check_market_updates` (`elfpy/markets/base.py`): for every delta
field that is instantiated and non-empty (Python truthiness: `0.0` is
skipped, `nan`/`inf` are truthy), assert `np.isfinite`. Returns `false`
exactly when the Python assertion fires. -/
def Market.check_market_updates (d : MarketDeltas) : Bool :=
  (deltaFields d).all fun v => !v.truthy || v.isfinite

/-- Fieldwise addition of a delta to the ledger (IEEE float addition). -/
def MarketState.applied (s : MarketState EFloat) (d : MarketDeltas) :
    MarketState EFloat where
  share_reserves := s.share_reserves.add d.d_share_reserves
  bond_reserves := s.bond_reserves.add d.d_bond_reserves
  lp_total_supply := s.lp_total_supply.add d.d_lp_total_supply
  share_price := s.share_price.add d.d_share_price
  init_share_price := s.init_share_price.add d.d_init_share_price
  curve_fee_multiple := s.curve_fee_multiple.add d.d_curve_fee_multiple
  flat_fee_multiple := s.flat_fee_multiple.add d.d_flat_fee_multiple
  base_buffer := s.base_buffer.add d.d_base_buffer
  bond_buffer := s.bond_buffer.add d.d_bond_buffer

/-- All ledger fields are finite. -/
def MarketState.allFinite (s : MarketState EFloat) : Bool :=
  (stateFields s).all EFloat.isfinite

/-- Decidable equality for `Except` results, used to evaluate the pipeline
at concrete inputs. -/
instance {e s : Type} [DecidableEq e] [DecidableEq s] : DecidableEq (Except e s)
  | .error a, .error b =>
    if h : a = b then .isTrue (by rw [h]) else .isFalse (by intro hh; cases hh; exact h rfl)
  | .error _, .ok _ => .isFalse (by intro hh; cases hh)
  | .ok _, .error _ => .isFalse (by intro hh; cases hh)
  | .ok a, .ok b =>
    if h : a = b then .isTrue (by rw [h]) else .isFalse (by intro hh; cases hh; exact h rfl)

/-- Errors surfaced by the market delta pipeline. -/
inductive MarketError where
  | deltaNotFinite
  | applyDeltaNonFinite
  | nonZeroReserves
  deriving DecidableEq

/-- Modelled from the spec: `MarketState.apply_delta` (the concrete
hyperdrive implementation is not under `src/`) — "adds every field of
`delta` to the corresponding state field; fails (leaving state unchanged)
if the would-be result contains a non-finite value", applying all field
updates as one logical step. -/
def MarketState.apply_delta (s : MarketState EFloat) (d : MarketDeltas) :
    Except MarketError (MarketState EFloat) :=
  let s' := s.applied d
  if s'.allFinite then .ok s' else .error .applyDeltaNonFinite

/-- Modelled from the spec: `elfpy.check_non_zero` (in `elfpy/__init__.py`,
not under `src/`) — "check reserves are non-zero within precision
threshold" (comment at the call site, `elfpy/markets/base.py:112`); per the
spec's error taxonomy a negative reserve is a fatal invariant violation.
Returns `false` exactly when a reserve is negative. -/
def check_non_zero (s : MarketState EFloat) : Bool :=
  !s.share_reserves.lt0 && !s.bond_reserves.lt0 && !s.lp_total_supply.lt0

/-- `Market.update_market` (floating-point variant,
`elfpy/markets/base.py:108-112`): precheck the delta with
`check_market_updates`, apply it, then run `check_non_zero` on the mutated
state. Returns the call's outcome together with the market state visible
to the caller after the call (mutation is in place in the source, so a
post-application failure leaves the mutated state visible). -/
def Market.update_market (s : MarketState EFloat) (d : MarketDeltas) :
    Except MarketError Unit × MarketState EFloat :=
  if Market.check_market_updates d = false then (.error .deltaNotFinite, s)
  else
    match s.apply_delta d with
    | .error e => (.error e, s)
    | .ok s' =>
      if check_non_zero s' then (.ok (), s') else (.error .nonZeroReserves, s')

/-- `MarketFP.update_market` (fixed-point variant,
`elfpy/markets/base.py:191-194`): no `check_market_updates` precheck — the
delta goes straight to `apply_delta`, followed by the non-zero-reserves
post-check. -/
def MarketFP.update_market (s : MarketState EFloat) (d : MarketDeltas) :
    Except MarketError Unit × MarketState EFloat :=
  match s.apply_delta d with
  | .error e => (.error e, s)
  | .ok s' =>
    if check_non_zero s' then (.ok (), s') else (.error .nonZeroReserves, s')

/-- A small all-finite ledger used as a concrete input. -/
def sampleState : MarketState EFloat where
  share_reserves := .num 1
  bond_reserves := .num 1
  lp_total_supply := .num 1
  share_price := .num 1
  init_share_price := .num 1
  curve_fee_multiple := .num 0
  flat_fee_multiple := .num 0
  base_buffer := .num 0
  bond_buffer := .num 0

/-- A delta with all finite fields that drives share reserves negative. -/
def negDelta : MarketDeltas where
  d_share_reserves := .num (-5)
  d_bond_reserves := .num 0
  d_lp_total_supply := .num 0
  d_share_price := .num 0
  d_init_share_price := .num 0
  d_curve_fee_multiple := .num 0
  d_flat_fee_multiple := .num 0
  d_base_buffer := .num 0
  d_bond_buffer := .num 0

/-- A delta whose share-reserves increment is `nan`. -/
def nanDelta : MarketDeltas where
  d_share_reserves := .nan
  d_bond_reserves := .num 0
  d_lp_total_supply := .num 0
  d_share_price := .num 0
  d_init_share_price := .num 0
  d_curve_fee_multiple := .num 0
  d_flat_fee_multiple := .num 0
  d_base_buffer := .num 0
  d_bond_buffer := .num 0

theorem check_market_updates_eq_false (d : MarketDeltas)
    (h : (deltaFields d).any (fun v => !v.isfinite) = true) :
    Market.check_market_updates d = false := by
  rw [List.any_eq_true] at h
  obtain ⟨v, hv, hnf⟩ := h
  rw [Bool.not_eq_true'] at hnf
  rw [Bool.eq_false_iff]
  intro hall
  rw [Market.check_market_updates, List.all_eq_true] at hall
  have hve := hall v hv
  rw [EFloat.truthy_of_not_isfinite v hnf, hnf] at hve
  simp at hve

theorem applied_not_allFinite (s : MarketState EFloat) (d : MarketDeltas)
    (h : (deltaFields d).any (fun v => !v.isfinite) = true) :
    (s.applied d).allFinite = false := by
  rw [List.any_eq_true] at h
  obtain ⟨v, hv, hnf⟩ := h
  rw [Bool.not_eq_true'] at hnf
  simp only [deltaFields, List.mem_cons, List.not_mem_nil, or_false] at hv
  simp only [MarketState.allFinite, stateFields, MarketState.applied,
    List.all_cons, List.all_nil, Bool.and_true]
  rcases hv with hv | hv | hv | hv | hv | hv | hv | hv | hv <;>
    subst hv <;> simp [EFloat.add_not_isfinite _ _ hnf]

theorem apply_delta_error_of_nonfinite (s : MarketState EFloat)
    (d : MarketDeltas) (h : (deltaFields d).any (fun v => !v.isfinite) = true) :
    s.apply_delta d = .error .applyDeltaNonFinite := by
  rw [MarketState.apply_delta]
  simp [applied_not_allFinite s d h]

/-- **C1** (counterexample): a market state and an all-finite delta on which
the floating-point `Market.update_market` fails in the post-application
`check_non_zero` check, yet the state visible after the failed call is the
mutated state, not the pre-call state — a committed mutation is observable
on failure. -/
theorem update_market_postcheck_failure_mutates :
    (Market.update_market sampleState negDelta).1 = .error .nonZeroReserves ∧
    (Market.update_market sampleState negDelta).2 ≠ sampleState := by
  constructor <;>
    norm_num [Market.update_market, MarketFP.update_market,
    Market.check_market_updates, deltaFields, sampleState, negDelta, nanDelta,
    EFloat.truthy, EFloat.isfinite, EFloat.add, MarketState.apply_delta,
    MarketState.applied, MarketState.allFinite, stateFields, check_non_zero,
    EFloat.lt0]

/-- **C1** (amended): if the floating-point `Market.update_market` fails in
the per-field finiteness precheck (`check_market_updates`) or inside the
delta application itself, the state visible to the caller equals the
pre-call state; only a failure of the post-application `check_non_zero`
check leaves the (fully) applied delta visible. -/
theorem update_market_unchanged_on_precheck_or_apply_failure
    (s : MarketState EFloat) (d : MarketDeltas)
    (h : (Market.update_market s d).1 = .error .deltaNotFinite ∨
         (Market.update_market s d).1 = .error .applyDeltaNonFinite) :
    (Market.update_market s d).2 = s := by
  unfold Market.update_market at h ⊢
  by_cases hc : Market.check_market_updates d = false
  · rw [if_pos hc]
  · rw [if_neg hc] at h ⊢
    cases hap : s.apply_delta d with
    | error e => simp [hap]
    | ok s' =>
      simp only [hap] at h
      by_cases hz : check_non_zero s' = true
      · simp [hz] at h
      · simp [hz] at h

/-- **C1** (witness): the amended theorem applied at a concrete input — a
`nan` delta makes the precheck fail and the state is unchanged. -/
theorem update_market_unchanged_witness :
    (Market.update_market sampleState nanDelta).1 = .error .deltaNotFinite ∧
    (Market.update_market sampleState nanDelta).2 = sampleState :=
  ⟨by norm_num [Market.update_market, MarketFP.update_market,
    Market.check_market_updates, deltaFields, sampleState, negDelta, nanDelta,
    EFloat.truthy, EFloat.isfinite, EFloat.add, MarketState.apply_delta,
    MarketState.applied, MarketState.allFinite, stateFields, check_non_zero,
    EFloat.lt0],
   update_market_unchanged_on_precheck_or_apply_failure sampleState nanDelta
     (Or.inl (by norm_num [Market.update_market, MarketFP.update_market,
    Market.check_market_updates, deltaFields, sampleState, negDelta, nanDelta,
    EFloat.truthy, EFloat.isfinite, EFloat.add, MarketState.apply_delta,
    MarketState.applied, MarketState.allFinite, stateFields, check_non_zero,
    EFloat.lt0]))⟩

/-- **C3** (counterexample): a delta containing a non-finite field on which
the fixed-point `MarketFP.update_market` does **not** apply the delta — it
fails inside `apply_delta` (the would-be result is non-finite) and leaves
the state unchanged, contradicting the claim that the fixed-point variant
applies such a delta. -/
theorem update_market_fp_nonfinite_delta_not_applied :
    (deltaFields nanDelta).any (fun v => !v.isfinite) = true ∧
    MarketFP.update_market sampleState nanDelta =
      (.error .applyDeltaNonFinite, sampleState) := by
  constructor <;>
    norm_num [Market.update_market, MarketFP.update_market,
    Market.check_market_updates, deltaFields, sampleState, negDelta, nanDelta,
    EFloat.truthy, EFloat.isfinite, EFloat.add, MarketState.apply_delta,
    MarketState.applied, MarketState.allFinite, stateFields, check_non_zero,
    EFloat.lt0]

/-- **C3** (amended): the floating-point `Market.update_market` runs the
`check_market_updates` finiteness precheck while the fixed-point
`MarketFP.update_market` omits it; on any delta containing a non-finite
field the floating-point variant fails at the precheck and the fixed-point
variant fails inside `apply_delta` — both leave the state unchanged, so the
variants differ in which validation rejects the delta, not in the
resulting state. -/
theorem update_market_variants_on_nonfinite_delta
    (s : MarketState EFloat) (d : MarketDeltas)
    (h : (deltaFields d).any (fun v => !v.isfinite) = true) :
    Market.update_market s d = (.error .deltaNotFinite, s) ∧
    MarketFP.update_market s d = (.error .applyDeltaNonFinite, s) := by
  constructor
  · rw [Market.update_market, if_pos (check_market_updates_eq_false d h)]
  · rw [MarketFP.update_market, apply_delta_error_of_nonfinite s d h]

/-- **C3** (witness): the amended theorem applied at a concrete input. -/
theorem update_market_variants_witness :
    Market.update_market sampleState nanDelta =
      (.error .deltaNotFinite, sampleState) ∧
    MarketFP.update_market sampleState nanDelta =
      (.error .applyDeltaNonFinite, sampleState) :=
  update_market_variants_on_nonfinite_delta sampleState nanDelta
    (by norm_num [Market.update_market, MarketFP.update_market,
    Market.check_market_updates, deltaFields, sampleState, negDelta, nanDelta,
    EFloat.truthy, EFloat.isfinite, EFloat.add, MarketState.apply_delta,
    MarketState.applied, MarketState.allFinite, stateFields, check_non_zero,
    EFloat.lt0])

/-! ## Pricing model -/

/-- Token type tags (`elfpy.types.TokenType`). -/
inductive TokenType where
  | base
  | pt
  deriving DecidableEq

/-- `elfpy.types.Quantity`: an amount tagged with the side of the curve it
refers to. -/
structure Quantity (α : Type) where
  amount : α
  unit : TokenType
  deriving DecidableEq

/-- `elfpy.time.StretchedTime` (module not under `src/`; fields and derived
values modelled from the spec §3). -/
structure StretchedTime (α : Type) where
  days : α
  time_stretch : α
  normalizing_constant : α
  deriving DecidableEq

/-- Derived: `normalized_time = days_remaining / normalizing_constant`. -/
def StretchedTime.normalized_time {α : Type} [DivisionRing α]
    (t : StretchedTime α) : α :=
  t.days / t.normalizing_constant

/-- Derived: `stretched_time = normalized_time / time_stretch`. -/
def StretchedTime.stretched_time {α : Type} [DivisionRing α]
    (t : StretchedTime α) : α :=
  t.normalized_time / t.time_stretch

/-- The per-quote breakdown of `trades.TradeResult` (pre-fee, post-fee and
fee-only amounts). -/
structure TradeBreakdown (α : Type) where
  without_fee_or_slippage : α
  without_fee : α
  fee : α
  with_fee : α
  deriving DecidableEq

/-- `elfpy.agents.agent_trade_result.AgentTradeResult`
(`src/elfpy/agents/agent_trade_result.py`): the user-side balance change. -/
structure AgentTradeResult (α : Type) where
  d_base : α
  d_bonds : α
  deriving DecidableEq

/-- `market_action_result.MarketActionResult`
(`src/elfpy/markets/hyperdrive/market_action_result.py`): the market-side
balance change. -/
structure MarketActionResult (α : Type) where
  d_base : α
  d_bonds : α
  deriving DecidableEq

/-- `trades.TradeResult`: a computed quote. -/
structure TradeResult (α : Type) where
  user_result : AgentTradeResult α
  market_result : MarketActionResult α
  breakdown : TradeBreakdown α
  deriving DecidableEq

/-- Python-level numeric failures. -/
inductive PyError where
  | zeroDivision
  deriving DecidableEq

/-- Division in the source languages raises on a zero divisor
(`ZeroDivisionError` for Python floats, `decimal.DivisionByZero` for the
`Decimal` context — its trap is enabled by default — and the fixed-point
kernel's division-by-zero failure); exact otherwise. -/
def checkedDiv {α : Type} [DivisionRing α] [DecidableEq α] (a b : α) :
    Except PyError α :=
  if b = 0 then .error .zeroDivision else .ok (a / b)

/-- `PricingModel._calc_spot_price_from_reserves_high_precision`
(`elfpy/pricing_models/base.py:186-216`): converts the reserves to
`Decimal` and computes `((μ·z)/(y+s))^τ` on the high-precision path.
There is **no** guard on `y + s = 0` in this variant: the division itself
raises. `Decimal` arithmetic is embedded exactly; the exponentiation is
abstracted by `pow` (instantiated with the real power in value-level
theorems). -/
def PricingModel.calc_spot_price_from_reserves_high_precision {α : Type}
    [LinearOrderedField α] (pow : α → α → α) (ms : MarketState α)
    (tr : StretchedTime α) : Except PyError α := do
  let ratio ← checkedDiv (ms.init_share_price * ms.share_reserves)
    (ms.bond_reserves + ms.lp_total_supply)
  return pow ratio tr.stretched_time

/-- `PricingModel.calc_spot_price_from_reserves`
(`elfpy/pricing_models/base.py:156-184`): the high-precision value narrowed
to working precision by `float(...)`, abstracted by `narrow`. -/
def PricingModel.calc_spot_price_from_reserves {α : Type}
    [LinearOrderedField α] (pow : α → α → α) (narrow : α → α)
    (ms : MarketState α) (tr : StretchedTime α) : Except PyError α :=
  (PricingModel.calc_spot_price_from_reserves_high_precision pow ms tr).map narrow

/-- `PricingModelFP.calc_spot_price_from_reserves`
(`elfpy/pricing_models/base.py:536-569`): guards `y + s == 0` by returning
`FixedPoint("nan")`, otherwise `((μ·z)/(y+s))^τ`. The fixed-point kernel is
modelled from the spec as exact decimal arithmetic with an explicit `nan`
value; exponentiation abstracted by `pow`. -/
def PricingModelFP.calc_spot_price_from_reserves (pow : ℚ → ℚ → ℚ)
    (ms : MarketState ℚ) (tr : StretchedTime ℚ) : EFloat :=
  if ms.bond_reserves + ms.lp_total_supply = 0 then .nan
  else .num (pow ((ms.init_share_price * ms.share_reserves) /
    (ms.bond_reserves + ms.lp_total_supply)) tr.stretched_time)

/-- A market state whose bond reserves and LP supply are both zero. -/
def degenerateState : MarketState ℚ where
  share_reserves := 1
  bond_reserves := 0
  lp_total_supply := 0
  share_price := 1
  init_share_price := 1
  curve_fee_multiple := 0
  flat_fee_multiple := 0
  base_buffer := 0
  bond_buffer := 0

/-- A one-year term with unit time stretch. -/
def sampleTimeQ : StretchedTime ℚ where
  days := 365
  time_stretch := 1
  normalizing_constant := 365

/-- **C2** (counterexample): on a state with `bond_reserves +
lp_total_supply = 0` the floating-point model's high-precision decimal path
fails with a division-by-zero error — it does not return a not-a-number
sentinel (only the fixed-point variant has that guard). -/
theorem spot_price_high_precision_zero_division :
    PricingModel.calc_spot_price_from_reserves_high_precision
      (fun a _ => a) degenerateState sampleTimeQ = .error .zeroDivision ∧
    PricingModel.calc_spot_price_from_reserves
      (fun a _ => a) id degenerateState sampleTimeQ = .error .zeroDivision := by
  constructor <;>
    norm_num [PricingModel.calc_spot_price_from_reserves,
      PricingModel.calc_spot_price_from_reserves_high_precision,
      checkedDiv, degenerateState, sampleTimeQ, Except.map]

/-- **C2** (amended): when `bond_reserves + lp_total_supply = 0`, the
fixed-point `PricingModelFP.calc_spot_price_from_reserves` returns the
explicit `nan` sentinel, while the floating-point model's high-precision
decimal path (and hence `PricingModel.calc_spot_price_from_reserves`)
fails with a division-by-zero error. -/
theorem spot_price_degenerate_reserves (fpow dpow : ℚ → ℚ → ℚ)
    (narrow : ℚ → ℚ) (ms : MarketState ℚ) (tr : StretchedTime ℚ)
    (h : ms.bond_reserves + ms.lp_total_supply = 0) :
    PricingModelFP.calc_spot_price_from_reserves fpow ms tr = .nan ∧
    PricingModel.calc_spot_price_from_reserves_high_precision dpow ms tr
      = .error .zeroDivision ∧
    PricingModel.calc_spot_price_from_reserves dpow narrow ms tr
      = .error .zeroDivision := by
  refine ⟨?_, ?_, ?_⟩
  · rw [PricingModelFP.calc_spot_price_from_reserves, if_pos h]
  · rw [PricingModel.calc_spot_price_from_reserves_high_precision]
    simp [checkedDiv, h]
  · rw [PricingModel.calc_spot_price_from_reserves,
      PricingModel.calc_spot_price_from_reserves_high_precision]
    simp [checkedDiv, h, Except.map]

/-- **C2** (witness): the amended theorem applied at a concrete degenerate
state. -/
theorem spot_price_degenerate_reserves_witness :
    degenerateState.bond_reserves + degenerateState.lp_total_supply = 0 ∧
    PricingModelFP.calc_spot_price_from_reserves
      (fun a _ => a) degenerateState sampleTimeQ = .nan :=
  ⟨by norm_num [degenerateState],
   (spot_price_degenerate_reserves (fun a _ => a) (fun a _ => a) id
     degenerateState sampleTimeQ (by norm_num [degenerateState])).1⟩

/-- `PricingModel.calc_time_stretch` (`elfpy/pricing_models/base.py:317-320`):
`3.09396 / (0.02789 * (apr * 100))`; Python raises `ZeroDivisionError`
when `apr = 0`. The literals are embedded as the exact decimals they
denote. -/
def PricingModel.calc_time_stretch (apr : ℚ) : Except PyError ℚ :=
  checkedDiv (309396 / 100000) ((2789 / 100000) * (apr * 100))

/-- `PricingModelFP.calc_time_stretch`
(`elfpy/pricing_models/base.py:670-675`): same formula over `FixedPoint`
literals `"3.09396"`, `"0.02789"`, `"100.0"`. The fixed-point kernel
(`elfpy/utils/math.py`, not under `src/`) is modelled from the spec as a
decimal kernel with deterministic rounding, embedded exactly; its division
fails on a zero divisor. -/
def PricingModelFP.calc_time_stretch (apr : ℚ) : Except PyError ℚ :=
  checkedDiv (309396 / 100000) ((2789 / 100000) * (apr * 100))

theorem calc_time_stretch_pos_denominator {a : ℚ} (ha : 0 < a) :
    (2789 / 100000 : ℚ) * (a * 100) ≠ 0 := by positivity

/-- **C6**: `calc_time_stretch` is strictly decreasing on `0 < a < b ≤ 1`
and fails with a division-by-zero class of error at `apr = 0`, in both the
floating-point and fixed-point variants. -/
theorem calc_time_stretch_strict_antitone_and_zero_error (a b : ℚ)
    (ha : 0 < a) (hab : a < b) (hb : b ≤ 1) :
    (∃ x y, PricingModel.calc_time_stretch a = .ok x ∧
      PricingModel.calc_time_stretch b = .ok y ∧ y < x) ∧
    (∃ x y, PricingModelFP.calc_time_stretch a = .ok x ∧
      PricingModelFP.calc_time_stretch b = .ok y ∧ y < x) ∧
    PricingModel.calc_time_stretch 0 = .error .zeroDivision ∧
    PricingModelFP.calc_time_stretch 0 = .error .zeroDivision := by
  have hb0 : (0 : ℚ) < b := lt_trans ha hab
  have hda : (0 : ℚ) < 2789 / 100000 * (a * 100) := by positivity
  have hdb : (0 : ℚ) < 2789 / 100000 * (b * 100) := by positivity
  have hlt : (2789 / 100000 : ℚ) * (a * 100) < 2789 / 100000 * (b * 100) := by
    have := mul_lt_mul_of_pos_right hab (by norm_num : (0:ℚ) < 100)
    exact mul_lt_mul_of_pos_left this (by norm_num)
  have hmono : (309396 / 100000 : ℚ) / (2789 / 100000 * (b * 100)) <
      309396 / 100000 / (2789 / 100000 * (a * 100)) :=
    div_lt_div_of_pos_left (by norm_num) hda hlt
  refine ⟨⟨_, _, ?_, ?_, hmono⟩, ⟨_, _, ?_, ?_, hmono⟩, ?_, ?_⟩ <;>
    simp [PricingModel.calc_time_stretch, PricingModelFP.calc_time_stretch,
      checkedDiv, ne_of_gt hda, ne_of_gt hdb]

/-- **C6** (witness): the theorem applied at `a = 1/100`, `b = 1`. -/
theorem calc_time_stretch_witness :
    (0 : ℚ) < 1 / 100 ∧ (1 / 100 : ℚ) < 1 ∧
    (∃ x y, PricingModel.calc_time_stretch (1 / 100) = .ok x ∧
      PricingModel.calc_time_stretch 1 = .ok y ∧ y < x) ∧
    PricingModel.calc_time_stretch 0 = .error .zeroDivision :=
  ⟨by norm_num, by norm_num,
   (calc_time_stretch_strict_antitone_and_zero_error (1 / 100) 1
     (by norm_num) (by norm_num) (by norm_num)).1,
   (calc_time_stretch_strict_antitone_and_zero_error (1 / 100) 1
     (by norm_num) (by norm_num) (by norm_num)).2.2.1⟩

/-- `PricingModel.get_max_long` (`elfpy/pricing_models/base.py:238-274`):
`base` is the `with_fee` of `calc_in_given_out` at an output of
`bond_reserves − bond_buffer` principal tokens, `bonds` is the `with_fee`
of `calc_out_given_in` at that base amount. The two curve solves are
abstract parameters (`cigo`, `cogi`): their concrete implementations live
in the pricing-model subclasses, which are outside the embedded base
class. The body is straight-line — no bisection loop. -/
def PricingModel.get_max_long
    (cigo cogi : Quantity ℚ → MarketState ℚ → StretchedTime ℚ → TradeResult ℚ)
    (ms : MarketState ℚ) (tr : StretchedTime ℚ) : ℚ × ℚ :=
  let base := (cigo ⟨ms.bond_reserves - ms.bond_buffer, .pt⟩ ms tr).breakdown.with_fee
  let bonds := (cogi ⟨base, .base⟩ ms tr).breakdown.with_fee
  (base, bonds)

/-- `PricingModel.get_max_short` (`elfpy/pricing_models/base.py:276-315`):
`bonds` is the `with_fee` of `calc_in_given_out` at an output of
`share_reserves − base_buffer / share_price`, `base` is the `with_fee` of
`calc_out_given_in` applied to those bonds. Straight-line, no bisection. -/
def PricingModel.get_max_short
    (cigo cogi : Quantity ℚ → MarketState ℚ → StretchedTime ℚ → TradeResult ℚ)
    (ms : MarketState ℚ) (tr : StretchedTime ℚ) : ℚ × ℚ :=
  let bonds := (cigo ⟨ms.share_reserves - ms.base_buffer / ms.share_price, .pt⟩
    ms tr).breakdown.with_fee
  let base := (cogi ⟨bonds, .pt⟩ ms tr).breakdown.with_fee
  (base, bonds)

/-- **C7**: for every pair of curve solves and every market state and time,
`get_max_long` returns exactly the `with_fee` of `calc_in_given_out` at the
bond-buffer boundary paired with the `with_fee` of `calc_out_given_in` at
that base amount, and `get_max_short` starts from
`share_reserves − base_buffer / share_price` and round-trips it through
`calc_out_given_in` — both are single direct computations (the definitions
are non-recursive), not bisection loops. -/
theorem get_max_long_short_round_trip
    (cigo cogi : Quantity ℚ → MarketState ℚ → StretchedTime ℚ → TradeResult ℚ)
    (ms : MarketState ℚ) (tr : StretchedTime ℚ) :
    PricingModel.get_max_long cigo cogi ms tr =
      ((cigo ⟨ms.bond_reserves - ms.bond_buffer, .pt⟩ ms tr).breakdown.with_fee,
       (cogi ⟨(cigo ⟨ms.bond_reserves - ms.bond_buffer, .pt⟩ ms
          tr).breakdown.with_fee, .base⟩ ms tr).breakdown.with_fee) ∧
    PricingModel.get_max_short cigo cogi ms tr =
      ((cogi ⟨(cigo ⟨ms.share_reserves - ms.base_buffer / ms.share_price, .pt⟩
          ms tr).breakdown.with_fee, .pt⟩ ms tr).breakdown.with_fee,
       (cigo ⟨ms.share_reserves - ms.base_buffer / ms.share_price, .pt⟩ ms
          tr).breakdown.with_fee) :=
  ⟨rfl, rfl⟩

/-- `PricingModel.check_output_assertions`
(`elfpy/pricing_models/base.py:378-398`): asserts that the breakdown's
`fee` and `without_fee` are floats (always true in this embedding) and that
`fee >= 0` and `without_fee >= 0`, with Python/IEEE comparison semantics
(`nan >= 0` is false, `inf >= 0` is true). Returns `false` exactly when an
assertion fires. -/
def PricingModel.check_output_assertions (t : TradeResult EFloat) : Bool :=
  t.breakdown.fee.ge0 && t.breakdown.without_fee.ge0

/-- `PricingModelFP.check_output_assertions`
(`elfpy/pricing_models/base.py:742-762`): the same two comparisons over
`FixedPoint` values; the kernel's special values (`FixedPoint("nan")`,
`FixedPoint("inf")`) are modelled from the spec with float-style comparison
semantics. -/
def PricingModelFP.check_output_assertions (t : TradeResult EFloat) : Bool :=
  t.breakdown.fee.ge0 && t.breakdown.without_fee.ge0

/-- A trade result whose fee and without-fee components are `+inf`. -/
def infFeeResult : TradeResult EFloat where
  user_result := ⟨.num 0, .num 0⟩
  market_result := ⟨.num 0, .num 0⟩
  breakdown := { without_fee_or_slippage := .num 1, without_fee := .inf,
                 fee := .inf, with_fee := .num 1 }

/-- **C9** (counterexample): a trade result with non-finite (infinite) fee
and without-fee components on which `check_output_assertions` succeeds in
both variants — it does not fail on every non-finite component, because
`inf >= 0` is true. -/
theorem check_output_assertions_passes_infinite :
    infFeeResult.breakdown.fee.isfinite = false ∧
    PricingModel.check_output_assertions infFeeResult = true ∧
    PricingModelFP.check_output_assertions infFeeResult = true :=
  ⟨rfl, rfl, rfl⟩

/-- **C9** (amended): `check_output_assertions` fails exactly when the fee
or the without-fee component is negative or `nan` (the values on which a
Python `assert x >= 0` fires); it succeeds on all other values, including
`+inf` — non-finiteness alone is not rejected. Both variants behave
identically. -/
theorem check_output_assertions_fails_iff_neg_or_nan (t : TradeResult EFloat) :
    (PricingModel.check_output_assertions t = false ↔
      t.breakdown.fee.negOrNan = true ∨ t.breakdown.without_fee.negOrNan = true) ∧
    PricingModelFP.check_output_assertions t =
      PricingModel.check_output_assertions t := by
  refine ⟨?_, rfl⟩
  rw [PricingModel.check_output_assertions, EFloat.ge0_eq_not_negOrNan,
    EFloat.ge0_eq_not_negOrNan]
  cases t.breakdown.fee.negOrNan <;> cases t.breakdown.without_fee.negOrNan <;>
    simp

/-- `PricingModel.check_input_assertions`
(`elfpy/pricing_models/base.py:322-374`), parameterized by the module
constants `WEI`, `MAX_RESERVES_DIFFERENCE` and `PRECISION_THRESHOLD`
(`elfpy/__init__.py`, not under `src/`): asserts, in order,
`quantity.amount >= WEI`, `share_reserves >= 0`, `bond_reserves >= 0`,
`init_share_price >= 1`,
`|share_reserves*share_price − bond_reserves| < MAX_RESERVES_DIFFERENCE`,
both fee multiples in `[0, 1]`, and the stretched and normalized times
within `[−PRECISION_THRESHOLD, 1 + PRECISION_THRESHOLD]`.
`share_price < init_share_price` only triggers `logging.warning`; it is
not asserted. Returns `true` iff no assertion fires. -/
def PricingModel.check_input_assertions (wei maxResDiff precThr : ℚ)
    (quantity : Quantity ℚ) (ms : MarketState ℚ) (tr : StretchedTime ℚ) :
    Bool :=
  decide (wei ≤ quantity.amount) &&
  decide (0 ≤ ms.share_reserves) &&
  decide (0 ≤ ms.bond_reserves) &&
  decide (1 ≤ ms.init_share_price) &&
  decide (|ms.share_reserves * ms.share_price - ms.bond_reserves| < maxResDiff) &&
  decide (0 ≤ ms.curve_fee_multiple ∧ ms.curve_fee_multiple ≤ 1) &&
  decide (0 ≤ ms.flat_fee_multiple ∧ ms.flat_fee_multiple ≤ 1) &&
  decide (-precThr ≤ tr.stretched_time ∧ tr.stretched_time ≤ 1 + precThr) &&
  decide (-precThr ≤ tr.normalized_time ∧ tr.normalized_time ≤ 1 + precThr)

/-- `PricingModelFP.check_input_assertions`
(`elfpy/pricing_models/base.py:677-738`): the same assertions over
`FixedPoint` values (kernel modelled exactly, constants `WEI_FP` etc.
parameterized); `share_price < init_share_price` again only logs a
warning. -/
def PricingModelFP.check_input_assertions (wei maxResDiff precThr : ℚ)
    (quantity : Quantity ℚ) (ms : MarketState ℚ) (tr : StretchedTime ℚ) :
    Bool :=
  decide (wei ≤ quantity.amount) &&
  decide (0 ≤ ms.share_reserves) &&
  decide (0 ≤ ms.bond_reserves) &&
  decide (1 ≤ ms.init_share_price) &&
  decide (|ms.share_reserves * ms.share_price - ms.bond_reserves| < maxResDiff) &&
  decide (0 ≤ ms.curve_fee_multiple ∧ ms.curve_fee_multiple ≤ 1) &&
  decide (0 ≤ ms.flat_fee_multiple ∧ ms.flat_fee_multiple ≤ 1) &&
  decide (-precThr ≤ tr.stretched_time ∧ tr.stretched_time ≤ 1 + precThr) &&
  decide (-precThr ≤ tr.normalized_time ∧ tr.normalized_time ≤ 1 + precThr)

/-- **C10**: under the asserted preconditions, `check_input_assertions`
succeeds in both variants even when `share_price < init_share_price` —
that condition only emits a log warning and never makes the call fail. -/
theorem check_input_assertions_ignores_low_share_price
    (wei maxResDiff precThr : ℚ) (quantity : Quantity ℚ)
    (ms : MarketState ℚ) (tr : StretchedTime ℚ)
    (hwei : wei ≤ quantity.amount)
    (hz : 0 ≤ ms.share_reserves) (hy : 0 ≤ ms.bond_reserves)
    (hμ : 1 ≤ ms.init_share_price)
    (hdiff : |ms.share_reserves * ms.share_price - ms.bond_reserves| < maxResDiff)
    (hcf : 0 ≤ ms.curve_fee_multiple ∧ ms.curve_fee_multiple ≤ 1)
    (hff : 0 ≤ ms.flat_fee_multiple ∧ ms.flat_fee_multiple ≤ 1)
    (hst : -precThr ≤ tr.stretched_time ∧ tr.stretched_time ≤ 1 + precThr)
    (hnt : -precThr ≤ tr.normalized_time ∧ tr.normalized_time ≤ 1 + precThr)
    (hlow : ms.share_price < ms.init_share_price) :
    PricingModel.check_input_assertions wei maxResDiff precThr quantity ms tr
      = true ∧
    PricingModelFP.check_input_assertions wei maxResDiff precThr quantity ms tr
      = true := by
  constructor <;>
    simp [PricingModel.check_input_assertions,
      PricingModelFP.check_input_assertions, hwei, hz, hy, hμ, hdiff,
      hcf.1, hcf.2, hff.1, hff.2, hst.1, hst.2, hnt.1, hnt.2]

/-- A market state with `share_price < init_share_price` that meets every
asserted precondition. -/
def lowSharePriceState : MarketState ℚ where
  share_reserves := 100
  bond_reserves := 100
  lp_total_supply := 100
  share_price := 1 / 2
  init_share_price := 1
  curve_fee_multiple := 1 / 10
  flat_fee_multiple := 1 / 10
  base_buffer := 0
  bond_buffer := 0

/-- **C10** (witness): the theorem applied at a concrete input with
`share_price = 1/2 < 1 = init_share_price`. -/
theorem check_input_assertions_witness :
    lowSharePriceState.share_price < lowSharePriceState.init_share_price ∧
    PricingModel.check_input_assertions (1 / 10 ^ 18) (2 * 10 ^ 10)
      (1 / 10 ^ 8) ⟨1, .base⟩ lowSharePriceState sampleTimeQ = true ∧
    PricingModelFP.check_input_assertions (1 / 10 ^ 18) (2 * 10 ^ 10)
      (1 / 10 ^ 8) ⟨1, .base⟩ lowSharePriceState sampleTimeQ = true :=
  ⟨by norm_num [lowSharePriceState],
   (check_input_assertions_ignores_low_share_price _ _ _ _ _ _
     (by norm_num) (by norm_num [lowSharePriceState])
     (by norm_num [lowSharePriceState]) (by norm_num [lowSharePriceState])
     (by norm_num [lowSharePriceState])
     (by norm_num [lowSharePriceState]) (by norm_num [lowSharePriceState])
     (by constructor <;>
       norm_num [sampleTimeQ, StretchedTime.stretched_time,
         StretchedTime.normalized_time])
     (by constructor <;>
       norm_num [sampleTimeQ, StretchedTime.normalized_time])
     (by norm_num [lowSharePriceState])).1,
   (check_input_assertions_ignores_low_share_price _ _ _ _ _ _
     (by norm_num) (by norm_num [lowSharePriceState])
     (by norm_num [lowSharePriceState]) (by norm_num [lowSharePriceState])
     (by norm_num [lowSharePriceState])
     (by norm_num [lowSharePriceState]) (by norm_num [lowSharePriceState])
     (by constructor <;>
       norm_num [sampleTimeQ, StretchedTime.stretched_time,
         StretchedTime.normalized_time])
     (by constructor <;>
       norm_num [sampleTimeQ, StretchedTime.normalized_time])
     (by norm_num [lowSharePriceState])).2⟩

/-! ## Value-level curve identities (exact real arithmetic) -/

/-- `PricingModel.calc_bond_reserves`
(`elfpy/pricing_models/base.py:116-154`): `μ·z·(1 + r·t)^(1/τ) − l` with
annualized time `t = days / 365` (`time.norm_days(time_remaining.days,
365)` — the `365` is hard-coded in the source; `norm_days`, not under
`src/`, is modelled from the spec as plain division). Exponentiation
abstracted by `pow`. -/
def PricingModel.calc_bond_reserves {α : Type} [LinearOrderedField α]
    (pow : α → α → α) (target_apr : α) (tr : StretchedTime α)
    (ms : MarketState α) : α :=
  ms.init_share_price * ms.share_reserves *
    pow (1 + target_apr * (tr.days / 365)) (1 / tr.stretched_time) -
    ms.lp_total_supply

/-- Modelled from the spec: `price_utils.calc_apr_from_spot_price`
(`elfpy/utils/price.py` is not under `src/`) — "apr = (1/price − 1) /
normalized_time (annualization convention fixed by the normalizing
constant)". -/
def calc_apr_from_spot_price {α : Type} [LinearOrderedField α]
    (price : α) (tr : StretchedTime α) : α :=
  (1 / price - 1) / tr.normalized_time

/-- `PricingModel.calc_apr_from_reserves`
(`elfpy/pricing_models/base.py:218-236`): the (narrowed) spot price fed
into `calc_apr_from_spot_price`. -/
def PricingModel.calc_apr_from_reserves {α : Type} [LinearOrderedField α]
    (pow : α → α → α) (narrow : α → α) (ms : MarketState α)
    (tr : StretchedTime α) : Except PyError α :=
  (PricingModel.calc_spot_price_from_reserves pow narrow ms tr).map
    fun p => calc_apr_from_spot_price p tr

theorem calc_spot_price_hp_ok {α : Type} [LinearOrderedField α]
    (pow : α → α → α) (ms : MarketState α) (tr : StretchedTime α)
    (h : ms.bond_reserves + ms.lp_total_supply ≠ 0) :
    PricingModel.calc_spot_price_from_reserves_high_precision pow ms tr =
      .ok (pow ((ms.init_share_price * ms.share_reserves) /
        (ms.bond_reserves + ms.lp_total_supply)) tr.stretched_time) := by
  rw [PricingModel.calc_spot_price_from_reserves_high_precision]
  simp [checkedDiv, h, Except.bind]

/-- **C8**: for reserves with `bond_reserves + lp_total_supply > 0`, the
high-precision path computes exactly
`((init_share_price·share_reserves)/(bond_reserves+lp_total_supply)) ^
stretched_time` (real power), and the working-precision spot price is by
construction the narrowing image of the high-precision value. -/
theorem calc_spot_price_from_reserves_formula (narrow : ℝ → ℝ)
    (ms : MarketState ℝ) (tr : StretchedTime ℝ)
    (h : 0 < ms.bond_reserves + ms.lp_total_supply) :
    PricingModel.calc_spot_price_from_reserves_high_precision
        (fun a b => a ^ b) ms tr =
      .ok (((ms.init_share_price * ms.share_reserves) /
        (ms.bond_reserves + ms.lp_total_supply)) ^ tr.stretched_time) ∧
    PricingModel.calc_spot_price_from_reserves (fun a b => a ^ b) narrow ms tr
      = (PricingModel.calc_spot_price_from_reserves_high_precision
          (fun a b => a ^ b) ms tr).map narrow :=
  ⟨calc_spot_price_hp_ok _ ms tr (ne_of_gt h), rfl⟩

/-- A unit market state over the reals (`z = 1`, `y = 1`, `l = 0`,
`c = μ = 1`). -/
def unitStateR : MarketState ℝ where
  share_reserves := 1
  bond_reserves := 1
  lp_total_supply := 0
  share_price := 1
  init_share_price := 1
  curve_fee_multiple := 0
  flat_fee_multiple := 0
  base_buffer := 0
  bond_buffer := 0

/-- A one-year term with unit time stretch, over the reals. -/
def unitTimeR : StretchedTime ℝ where
  days := 365
  time_stretch := 1
  normalizing_constant := 365

/-- **C8** (witness): the formula theorem applied at the unit state. -/
theorem calc_spot_price_from_reserves_formula_witness :
    (0 : ℝ) < unitStateR.bond_reserves + unitStateR.lp_total_supply ∧
    PricingModel.calc_spot_price_from_reserves_high_precision
        (fun a b => a ^ b) unitStateR unitTimeR =
      .ok (((unitStateR.init_share_price * unitStateR.share_reserves) /
        (unitStateR.bond_reserves + unitStateR.lp_total_supply)) ^
        unitTimeR.stretched_time) :=
  ⟨by norm_num [unitStateR],
   (calc_spot_price_from_reserves_formula id unitStateR unitTimeR
     (by norm_num [unitStateR])).1⟩

/-- **C5**: in exact arithmetic, replacing the bond reserves with
`calc_bond_reserves(target_apr, time_remaining, state)` makes
`calc_apr_from_reserves` return exactly the target APR, for every state
with positive share reserves and `init_share_price ≥ 1`, every stretched
time with positive time stretch and positive stretched time and the
annualization convention `normalizing_constant = 365`, and every target
APR in `(0, 1]`. -/
theorem calc_bond_reserves_realizes_target_apr
    (ms : MarketState ℝ) (tr : StretchedTime ℝ) (r : ℝ)
    (hz : 0 < ms.share_reserves) (hμ : 1 ≤ ms.init_share_price)
    (hts : 0 < tr.time_stretch) (hst : 0 < tr.stretched_time)
    (hnc : tr.normalizing_constant = 365) (hr0 : 0 < r) (hr1 : r ≤ 1) :
    PricingModel.calc_apr_from_reserves (fun a b => a ^ b) id
      { ms with bond_reserves :=
          PricingModel.calc_bond_reserves (fun a b => a ^ b) r tr ms } tr
      = .ok r := by
  have hμ0 : (0 : ℝ) < ms.init_share_price := lt_of_lt_of_le one_pos hμ
  have hτ : tr.stretched_time ≠ 0 := ne_of_gt hst
  have hnorm : tr.normalized_time = tr.days / 365 := by
    rw [StretchedTime.normalized_time, hnc]
  have hntpos : 0 < tr.normalized_time := by
    have h2 : 0 < tr.normalized_time / tr.time_stretch := hst
    rcases div_pos_iff.mp h2 with ⟨h3, _⟩ | ⟨_, h4⟩
    · exact h3
    · linarith
  have ht : (0 : ℝ) < tr.days / 365 := hnorm ▸ hntpos
  set t : ℝ := tr.days / 365 with htdef
  set A : ℝ := 1 + r * t with hAdef
  have hApos : (0 : ℝ) < A := by
    have : 0 < r * t := mul_pos hr0 ht
    rw [hAdef]; linarith
  set B : ℝ := A ^ ((1 : ℝ) / tr.stretched_time) with hBdef
  have hBpos : (0 : ℝ) < B := Real.rpow_pos_of_pos hApos _
  have hμz : ms.init_share_price * ms.share_reserves ≠ 0 :=
    ne_of_gt (mul_pos hμ0 hz)
  have hden : (0 : ℝ) < ms.init_share_price * ms.share_reserves * B :=
    mul_pos (mul_pos hμ0 hz) hBpos
  have hbr : PricingModel.calc_bond_reserves (fun a b => a ^ b) r tr ms =
      ms.init_share_price * ms.share_reserves * B - ms.lp_total_supply := rfl
  have hne : ({ ms with bond_reserves :=
        PricingModel.calc_bond_reserves (fun a b => a ^ b) r tr ms } :
      MarketState ℝ).bond_reserves +
      ({ ms with bond_reserves :=
        PricingModel.calc_bond_reserves (fun a b => a ^ b) r tr ms } :
      MarketState ℝ).lp_total_supply ≠ 0 := by
    show PricingModel.calc_bond_reserves (fun a b => a ^ b) r tr ms +
      ms.lp_total_supply ≠ 0
    rw [hbr, sub_add_cancel]
    exact ne_of_gt hden
  rw [PricingModel.calc_apr_from_reserves,
    PricingModel.calc_spot_price_from_reserves,
    calc_spot_price_hp_ok _ _ _ hne]
  show Except.ok (calc_apr_from_spot_price (id
    ((ms.init_share_price * ms.share_reserves /
      (ms.init_share_price * ms.share_reserves * B - ms.lp_total_supply +
        ms.lp_total_supply)) ^ tr.stretched_time)) tr) = Except.ok r
  rw [sub_add_cancel, id_eq]
  have hratio : ms.init_share_price * ms.share_reserves /
      (ms.init_share_price * ms.share_reserves * B) = B⁻¹ := by
    rw [div_mul_eq_div_div, div_self hμz, one_div]
  rw [hratio]
  have hBτ : B⁻¹ ^ tr.stretched_time = A⁻¹ := by
    rw [Real.inv_rpow (le_of_lt hBpos)]
    congr 1
    rw [hBdef, ← Real.rpow_mul (le_of_lt hApos), one_div,
      inv_mul_cancel₀ hτ, Real.rpow_one]
  rw [hBτ]
  have hfinal : calc_apr_from_spot_price A⁻¹ tr = r := by
    rw [calc_apr_from_spot_price, one_div, inv_inv, hnorm, hAdef,
      add_sub_cancel_left]
    exact mul_div_cancel_right₀ r (ne_of_gt ht)
  rw [hfinal]

/-- **C5** (witness): the theorem applied at the unit state, a one-year
term with unit time stretch, and target APR `1/2`. -/
theorem calc_bond_reserves_realizes_target_apr_witness :
    (0 : ℝ) < unitStateR.share_reserves ∧ (0 : ℝ) < unitTimeR.stretched_time ∧
    PricingModel.calc_apr_from_reserves (fun a b => a ^ b) id
      { unitStateR with bond_reserves :=
          (PricingModel.calc_bond_reserves (fun a b => a ^ b) (1 / 2)
            unitTimeR unitStateR) } unitTimeR
      = .ok (1 / 2) :=
  ⟨by norm_num [unitStateR],
   by norm_num [unitTimeR, StretchedTime.stretched_time,
     StretchedTime.normalized_time],
   calc_bond_reserves_realizes_target_apr unitStateR unitTimeR (1 / 2)
     (by norm_num [unitStateR]) (by norm_num [unitStateR])
     (by norm_num [unitTimeR])
     (by norm_num [unitTimeR, StretchedTime.stretched_time,
       StretchedTime.normalized_time])
     (by norm_num [unitTimeR]) (by norm_num) (by norm_num)⟩

/-! ## Checkpoint subsystem -/

/-- Modelled from the spec: a recorded `Checkpoint` — share price captured
once at creation, plus the bucket's base-volume aggregates. -/
structure Checkpoint where
  share_price : ℚ
  long_base_volume : ℚ
  short_base_volume : ℚ
  deriving DecidableEq

/-- Modelled from the spec: the position aggregates that settlement of
matured positions may modify. -/
structure PositionState where
  longs_outstanding : ℚ
  shorts_outstanding : ℚ
  long_average_maturity_time : ℚ
  short_average_maturity_time : ℚ
  long_base_volume : ℚ
  short_base_volume : ℚ
  deriving DecidableEq

/-- Modelled from the spec: the market fields the checkpoint subsystem
reads and writes — the caller-advanced clock, the checkpoint duration, the
current share price, the position aggregates and the ordered
`checkpoint_time → Checkpoint` mapping. -/
structure CheckpointLedger where
  now : ℚ
  checkpoint_duration : ℚ
  share_price : ℚ
  positions : PositionState
  checkpoints : List (ℚ × Checkpoint)
  deriving DecidableEq

/-- `errors.InvalidCheckpointTime` (raised in the tests
`src/tests_fp/solidity/test_checkpoints_fp.py:47-55`). -/
inductive CheckpointError where
  | invalidCheckpointTime
  deriving DecidableEq

/-- `t mod d == 0`: `t` is an exact multiple of `d`, computed as the
denominator test `(t/d).den = 1` (equivalent to `∃ k : ℤ, t = k·d` when
`d ≠ 0`, see `alignedTo_iff_int_multiple`). -/
def alignedTo (t d : ℚ) : Bool := (t / d).den == 1

theorem alignedTo_iff_int_multiple (t d : ℚ) (hd : d ≠ 0) :
    alignedTo t d = true ↔ ∃ k : ℤ, t = k * d := by
  rw [alignedTo, beq_iff_eq]
  constructor
  · intro h
    refine ⟨(t / d).num, ?_⟩
    have hq : ((t / d).num : ℚ) = t / d := (Rat.den_eq_one_iff _).mp h
    rw [hq, div_mul_cancel₀ _ hd]
  · rintro ⟨k, rfl⟩
    rw [mul_div_cancel_right₀ _ hd, Rat.den_intCast]

/-- Modelled from the spec: `Market.checkpoint`
(`hyperdrive_market.py`, not under `src/`) — per-bucket state machine
unopened → recorded. Fails with an invalid-timestamp error unless
`t ≤ now` and `t mod checkpoint_duration == 0` (the failure cases
exercised by `test_checkpoint_failure_future_checkpoint` and
`test_checkpoint_failure_invalid_checkpoint`); a no-op if bucket `t`
already holds a recorded `Checkpoint`; otherwise records a checkpoint
capturing the *current* share price and settles the positions maturing in
bucket `t` (the settlement computation is abstracted by `settle`, which
touches only the position aggregates, never the checkpoints mapping). -/
def Market.checkpoint (settle : ℚ → PositionState → PositionState)
    (s : CheckpointLedger) (t : ℚ) :
    Except CheckpointError CheckpointLedger :=
  if t > s.now ∨ alignedTo t s.checkpoint_duration = false then
    .error .invalidCheckpointTime
  else
    match s.checkpoints.lookup t with
    | some _ => .ok s
    | none => .ok { s with
        checkpoints := (t, ⟨s.share_price, 0, 0⟩) :: s.checkpoints,
        positions := settle t s.positions }

/-- **C4**: `checkpoint(t)` fails with the invalid-timestamp error unless
`t ≤ now` and `t` is an exact multiple of `checkpoint_duration`; it
succeeds whenever both hold; and it is idempotent — if a first call
returns state `s'`, calling again on `s'` with the same `t` returns `s'`
unchanged, so two calls produce the state one call produces. -/
theorem checkpoint_validity_and_idempotence
    (settle : ℚ → PositionState → PositionState) (s : CheckpointLedger)
    (t : ℚ) :
    (¬(t ≤ s.now ∧ alignedTo t s.checkpoint_duration = true) →
      Market.checkpoint settle s t = .error .invalidCheckpointTime) ∧
    ((t ≤ s.now ∧ alignedTo t s.checkpoint_duration = true) →
      ∃ s', Market.checkpoint settle s t = .ok s') ∧
    (∀ s', Market.checkpoint settle s t = .ok s' →
      Market.checkpoint settle s' t = .ok s') := by
  have hcond : (t > s.now ∨ alignedTo t s.checkpoint_duration = false) ↔
      ¬(t ≤ s.now ∧ alignedTo t s.checkpoint_duration = true) := by
    constructor
    · rintro (h | h) ⟨h1, h2⟩
      · exact absurd h1 (not_le.mpr h)
      · rw [h2] at h; cases h
    · intro h
      by_cases hle : t ≤ s.now
      · exact Or.inr (Bool.eq_false_iff.mpr fun hb => h ⟨hle, hb⟩)
      · exact Or.inl (lt_of_not_le hle)
  refine ⟨?_, ?_, ?_⟩
  · intro h
    rw [Market.checkpoint, if_pos (hcond.mpr h)]
  · intro h
    rw [Market.checkpoint, if_neg (fun hc => (hcond.mp hc) h)]
    cases hl : s.checkpoints.lookup t with
    | some c => exact ⟨s, rfl⟩
    | none => exact ⟨_, rfl⟩
  · intro s' h
    rw [Market.checkpoint] at h
    by_cases hc : t > s.now ∨ alignedTo t s.checkpoint_duration = false
    · rw [if_pos hc] at h; cases h
    · rw [if_neg hc] at h
      cases hl : s.checkpoints.lookup t with
      | some c =>
        rw [hl] at h
        cases h
        rw [Market.checkpoint, if_neg hc, hl]
      | none =>
        rw [hl] at h
        cases h
        rw [Market.checkpoint]
        split
        · next hc' => exact absurd hc' hc
        · simp [List.lookup]

/-- A two-bucket ledger: unit checkpoint duration, clock at `2`. -/
def sampleLedger : CheckpointLedger where
  now := 2
  checkpoint_duration := 1
  share_price := 1
  positions := ⟨0, 0, 0, 0, 0, 0⟩
  checkpoints := []

/-- **C4** (witness): the theorem applied at concrete inputs — a future
time `4 > 2` fails with the invalid-timestamp error, and checkpointing at
`t = 2` twice yields exactly the state of a single call. -/
theorem checkpoint_validity_and_idempotence_witness :
    Market.checkpoint (fun _ p => p) sampleLedger 4 =
      .error .invalidCheckpointTime ∧
    ∃ s', Market.checkpoint (fun _ p => p) sampleLedger 2 = .ok s' ∧
      Market.checkpoint (fun _ p => p) s' 2 = .ok s' := by
  have halign : alignedTo 2 sampleLedger.checkpoint_duration = true := by
    rw [sampleLedger, alignedTo]
    norm_num
  obtain ⟨s', hs'⟩ :=
    (checkpoint_validity_and_idempotence (fun _ p => p) sampleLedger 2).2.1
      ⟨by norm_num [sampleLedger], halign⟩
  exact ⟨(checkpoint_validity_and_idempotence (fun _ p => p) sampleLedger
      4).1 (fun hc => by have := hc.1; norm_num [sampleLedger] at this),
    s', hs',
    (checkpoint_validity_and_idempotence (fun _ p => p) sampleLedger 2).2.2
      s' hs'⟩

end Elfpy
